import Mathlib

/-!
# Verification of the Office Bingo Game ("Bingo Snap") core logic

Shallow embedding of the TypeScript sources:
* `src/types.ts` — the data model (`BingoCell`, `BingoGame`, `CreateGameParams`);
* `src/components/BingoBoard.tsx` — win-line evaluation (`winStatus` / `isFullHouse`),
  photo mutations (`addPhoto` / `removePhoto`) and share export (`handleShare`);
* `src/App.tsx` — game creation (`handleCreateGame`), the load-time photo migration
  and the share-import effect;
* `src/components/CreateGame.tsx` — the manual / holiday-template creation paths;
* `src/services/geminiService.ts` — `generateBingoItems` with its fallbacks.

Optional (possibly-`undefined`) TypeScript fields are modelled with `Option`;
JavaScript array indices passed to `Array.prototype.splice` are modelled with `Int`
(so that the negative-index behaviour of `splice` is captured exactly).
-/

/-- `BingoCell` from `src/types.ts`: `photos?: string[]`, `completedAt?: number`. -/
structure BingoCell where
  id : String
  text : String
  photos : Option (List String)
  completedAt : Option Nat
deriving DecidableEq, Repr

/-- `BingoGame` from `src/types.ts`. -/
structure BingoGame where
  id : String
  title : String
  size : Nat
  cells : List BingoCell
  createdAt : Nat
  theme : Option String
deriving DecidableEq, Repr

/-- `CreateGameParams` from `src/types.ts`. -/
structure CreateGameParams where
  title : String
  size : Nat
  topic : Option String
  customItems : Option (List String)
deriving DecidableEq, Repr

/-- The completion test used throughout `BingoBoard.tsx`:
`c.photos && c.photos.length > 0` (an absent `photos` field is falsy;
an existing empty array is truthy but has length 0). -/
def cellComplete (c : BingoCell) : Bool :=
  match c.photos with
  | some ps => decide (0 < ps.length)
  | none => false

/-- Embeds `game.cells.map((c, i) => (c.photos && c.photos.length > 0) ? i : -1)`
(`BingoBoard.tsx:31-33`): the cell at running index `i` is mapped to `i` when
complete and to the sentinel `-1` otherwise. -/
def markIdx (i : Nat) : List BingoCell → List Int
  | [] => []
  | c :: cs => (if cellComplete c then (i : Int) else -1) :: markIdx (i + 1) cs

/-- `completedIndices` from `BingoBoard.tsx:30-34`: the marked indices with the
`-1` sentinels filtered out.  (The TS wraps the result in a `Set`; the list is
already duplicate-free, so its length is the set's size.) -/
def completedIdx (cells : List BingoCell) : List Int :=
  (markIdx 0 cells).filter (fun j => j != -1)

/-- `isFull` from `BingoBoard.tsx:36`:
`game.cells.length > 0 && completedIndices.size === game.cells.length`. -/
def isFullHouse (cells : List BingoCell) : Bool :=
  decide (0 < cells.length) && ((completedIdx cells).length == cells.length)

/-- The duplicate-avoiding push of `checkLine` (`BingoBoard.tsx:42-43`):
`if (!current.includes(type)) current.push(type)`. -/
def pushTag (tags : List String) (t : String) : List String :=
  if t ∈ tags then tags else tags ++ [t]

/-- `checkLine` from `BingoBoard.tsx:39-49`: when every index of the line is
completed, the line's tag is pushed onto the status of each of its indices. -/
def checkLine (completed : List Int) (indices : List Int) (t : String)
    (status : Int → List String) : Int → List String :=
  if indices.all (fun i => completed.contains i) then
    fun j => if indices.contains j then pushTag (status j) t else status j
  else status

/-- The lines scanned by the evaluator, in source order (`BingoBoard.tsx:51-68`):
all rows tagged `row`, all columns tagged `col`, then the two diagonals
`i*size + i` and `(i+1)*size - (i+1)`, both tagged `diag`. -/
def boardLines (size : Nat) : List (List Int × String) :=
  (List.range size).map
    (fun r => ((List.range size).map (fun c => ((r * size + c : Nat) : Int)), "row"))
  ++ (List.range size).map
    (fun c => ((List.range size).map (fun r => ((r * size + c : Nat) : Int)), "col"))
  ++ [((List.range size).map (fun i => ((i * size + i : Nat) : Int)), "diag"),
      ((List.range size).map (fun i => (((i + 1) * size - (i + 1) : Nat) : Int)), "diag")]

/-- `winStatus` from the `useMemo` at `BingoBoard.tsx:27-71`: the map from cell
index to the list of win tags, built by running `checkLine` over every line.
An index absent from the map reads as `[]` (`winStatus.get(index) || []`). -/
def winStatus (size : Nat) (cells : List BingoCell) : Int → List String :=
  let completed := completedIdx cells
  (boardLines size).foldl (fun status l => checkLine completed l.1 l.2 status) (fun _ => [])

/-- `addPhoto`'s per-cell update (`BingoBoard.tsx:140-151`): append the photo to
`photos || []` and stamp `completedAt` with the current time. -/
def addPhotoCell (c : BingoCell) (photoUrl : String) (now : Nat) : BingoCell :=
  { c with photos := some (c.photos.getD [] ++ [photoUrl]), completedAt := some now }

/-- JavaScript `arr.splice(start, 1)` on a copy, returning the remaining list:
a negative `start` counts from the end and is clamped at 0
(`actualStart = max(len + start, 0)`), a too-large `start` is clamped at `len`
(removing nothing). -/
def jsSplice1 (l : List String) (start : Int) : List String :=
  let s : Nat := if start < 0 then ((l.length : Int) + start).toNat
                 else min start.toNat l.length
  l.take s ++ l.drop (s + 1)

/-- `removePhoto`'s per-cell update (`BingoBoard.tsx:156-171`): guarded by the
truthiness of `c.photos` (absent ⇒ untouched; an empty array is truthy), the
photo at `photoIndex` is spliced out and `completedAt` is kept only while
photos remain. Total — no index can make it throw. -/
def removePhotoCell (c : BingoCell) (photoIndex : Int) : BingoCell :=
  match c.photos with
  | some ps =>
      let newPhotos := jsSplice1 ps photoIndex
      { c with photos := some newPhotos,
               completedAt := if 0 < newPhotos.length then c.completedAt else none }
  | none => c

/-- `addPhoto` at board level (`BingoBoard.tsx:140-154`): update the matching
cell, then call `updateGameState(newCells, true)` — the second component is the
`triggerConfetti` flag, which `addPhoto` passes as the literal `true`. -/
def addPhoto (g : BingoGame) (cellId : String) (photoUrl : String) (now : Nat) :
    BingoGame × Bool :=
  let newCells := g.cells.map (fun c => if c.id = cellId then addPhotoCell c photoUrl now else c)
  ({ g with cells := newCells }, true)

/-- `removePhoto` at board level (`BingoBoard.tsx:156-174`): update the matching
cell, then call `updateGameState(newCells, false)` — confetti is never triggered. -/
def removePhoto (g : BingoGame) (cellId : String) (photoIndex : Int) :
    BingoGame × Bool :=
  let newCells := g.cells.map (fun c => if c.id = cellId then removePhotoCell c photoIndex else c)
  ({ g with cells := newCells }, false)

/-- Photo count of a cell, reading an absent `photos` field as the empty list. -/
def photoCount (c : BingoCell) : Nat :=
  (c.photos.getD []).length

/-- Attach a sequence of photos (url, timestamp) to a cell, one `addPhoto` at a time. -/
def attachPhotos (c : BingoCell) (ups : List (String × Nat)) : BingoCell :=
  ups.foldl (fun acc p => addPhotoCell acc p.1 p.2) c

/-- Remove photos from a cell, one `removePhoto` at a time, at the given indices. -/
def removePhotos (c : BingoCell) (idxs : List Int) : BingoCell :=
  idxs.foldl removePhotoCell c

/-- The cell list built by `handleCreateGame` (`App.tsx:93-97`):
`(params.customItems || []).map((text, idx) => ({ id: ..., text, photos: [] }))`,
with the running index threaded explicitly. -/
def mkCells (now : Nat) : Nat → List String → List BingoCell
  | _, [] => []
  | idx, t :: ts =>
      { id := s!"cell-{now}-{idx}", text := t, photos := some [], completedAt := none }
        :: mkCells now (idx + 1) ts

/-- `handleCreateGame` from `App.tsx:86-103`: the new `BingoGame` record
(`Date.now()` is passed in as `now`). -/
def handleCreateGame (params : CreateGameParams) (now : Nat) : BingoGame :=
  { id := toString now
    title := params.title
    size := params.size
    cells := mkCells now 0 (params.customItems.getD [])
    createdAt := now
    theme := params.topic }

/-- The generic items of the manual creation path (`CreateGame.tsx:62`):
`Array.from({ length: size * size }, (_, i) => ` then `Task i+1`). -/
def manualItems (size : Nat) : List String :=
  (List.range (size * size)).map (fun i => s!"Task {i + 1}")

/-- `HOLIDAY_TASKS` from `CreateGame.tsx:11-37`. -/
def HOLIDAY_TASKS : List String :=
  [ "Visit the Christmas Wonderland or Distillery District"
  , "Build a gingerbread house"
  , "Light a winter candle"
  , "Dress up a pet in holiday costume"
  , "Set up and decorate Christmas tree"
  , "Go for lunch/dinner with colleagues"
  , "Share a holiday tradition with a co-worker"
  , "Visit the Scotia Plaza Christmas tree"
  , "Set up a Christmas village / train"
  , "Donate to charity (clothes, toy, etc.)"
  , "Watch a holiday movie"
  , "Drive/walk around to see holiday lights"
  , "Wrap a holiday gift"
  , "Bake holiday-themed cookies"
  , "Write a letter to Santa"
  , "Go all out on holiday lights"
  , "Attend a holiday concert, play, or virtual event"
  , "Go ice skating or sledding"
  , "Write or make holiday cards"
  , "Go for a run or walk outdoors"
  , "Enjoy a hot chocolate or festive drink with colleagues"
  , "Create and listen to a holiday playlist"
  , "Take a festive photo"
  , "Make or cook a holiday recipe"
  , "Wear an ugly sweater" ]

/-- The `CreateGameParams` sent by `loadHolidayTemplate` (`CreateGame.tsx:67-74`). -/
def holidayParams : CreateGameParams :=
  { title := "Holiday Bingo Challenge"
    size := 5
    topic := some "Holiday Fun"
    customItems := some HOLIDAY_TASKS }

/-- Outcome of the Gemini provider call as observed by `generateBingoItems`:
either some exception was raised on the way to a parsed list (network error,
empty `response.text`, `JSON.parse` failure), or a string list was obtained. -/
inductive ProviderResult where
  | err
  | ok (items : List String)
deriving DecidableEq, Repr

/-- `generateBingoItems` from `src/services/geminiService.ts:7-48`, parametrised
by the provider outcome: on any exception the catch block returns `count` copies
of `Task i+1 (topic)`; on a parsed list, `Bonus Item i+1` entries are pushed
while the list is short of `count`, and the result is `slice(0, count)`. -/
def generateBingoItems (topic : String) (count : Nat) (r : ProviderResult) : List String :=
  match r with
  | .err => (List.range count).map (fun i => s!"Task {i + 1} ({topic})")
  | .ok items =>
      let padded := items ++ (List.range (count - items.length)).map (fun i => s!"Bonus Item {i + 1}")
      padded.take count

/-- The `CreateGameParams` sent by the manual branch of `handleSubmit`
(`CreateGame.tsx:61-63`): no topic, `size * size` generic items. -/
def manualSubmitParams (title : String) (size : Nat) : CreateGameParams :=
  { title := title, size := size, topic := none, customItems := some (manualItems size) }

/-- The `CreateGameParams` sent by the AI branch of `handleSubmit`
(`CreateGame.tsx:50-54`): `size * size` items requested from
`generateBingoItems`, whatever the provider outcome `r`. -/
def aiSubmitParams (title : String) (size : Nat) (topic : String)
    (r : ProviderResult) : CreateGameParams :=
  { title := title
    size := size
    topic := some topic
    customItems := some (generateBingoItems topic (size * size) r) }

/-- A persisted cell as read back from `localStorage` (`App.tsx:41-47`): it may
carry the current `photos` array, the legacy single `photoUrl` string, both, or
neither. -/
structure StoredCell where
  id : String
  text : String
  photos : Option (List String)
  photoUrl : Option String
  completedAt : Option Nat
deriving DecidableEq, Repr

/-- The per-cell migration of the load effect (`App.tsx:44-46`):
`photos: cell.photos || (cell.photoUrl ? [cell.photoUrl] : [])`.
JavaScript truthiness: an absent `photos` is falsy while an existing empty
array is truthy; an absent or empty-string `photoUrl` is falsy. -/
def migrateCell (cell : StoredCell) : StoredCell :=
  let migrated : List String :=
    match cell.photos with
    | some ps => ps
    | none =>
        match cell.photoUrl with
        | some u => if u = "" then [] else [u]
        | none => []
  { cell with photos := some migrated }

/-- `gameTemplate` built by `handleShare` (`BingoBoard.tsx:186-196`): same game
with a fresh `id`/`createdAt` taken from `Date.now()` and every cell stripped to
`photos: []`, `completedAt: undefined`.  The template is then serialised with
`JSON.stringify`, `encodeURIComponent` and `btoa` into the `?import=` token; we
model the token by its payload value, since that encoding chain is injective and
is inverted exactly by the import path. -/
def exportShareable (g : BingoGame) (now : Nat) : BingoGame :=
  { g with id := toString now
         , cells := g.cells.map (fun c => { c with photos := some [], completedAt := none })
         , createdAt := now }

/-- The import effect (`App.tsx:22-31`): `JSON.parse(decodeURIComponent(atob(importData)))`
recovers the payload game of the share token unchanged (`JSON.stringify` drops
`undefined` fields, and parsing reads absent fields back as `undefined`, so the
round trip is the identity on game values). -/
def importShareable (payload : BingoGame) : BingoGame :=
  payload

/-! ## Concrete boards and cells used in the claim statements -/

/-- A 3×3 board whose completion bitmap marks exactly row 0: the first three
cells carry one photo each, the other six an empty photo list. -/
def rowCells3 : List BingoCell :=
  (List.range 9).map (fun i =>
    { id := toString i, text := toString i
      photos := if i < 3 then some ["p"] else some []
      completedAt := if i < 3 then some 1 else none })

/-- A 5×5 board whose completion bitmap marks exactly the main diagonal
`i*5 + i ∈ \x7b0, 6, 12, 18, 24\x7d` (the multiples of 6 below 25). -/
def diagCells5 : List BingoCell :=
  (List.range 25).map (fun i =>
    { id := toString i, text := toString i
      photos := if i % 6 = 0 then some ["p"] else some []
      completedAt := if i % 6 = 0 then some 1 else none })

/-- A one-cell board whose single cell is complete. -/
def oneCompleteCell : List BingoCell :=
  [{ id := "c0", text := "t", photos := some ["p"], completedAt := some 1 }]

/-- A 3×3 game with every photo list empty (used for the confetti analysis). -/
def emptyGame3 : BingoGame :=
  { id := "g", title := "T", size := 3
    cells := (List.range 9).map (fun i =>
      { id := s!"c{i}", text := toString i, photos := some [], completedAt := none })
    createdAt := 0, theme := none }

/-- A cell holding two photos (used for the invalid-index analysis). -/
def twoPhotoCell : BingoCell :=
  { id := "c", text := "t", photos := some ["a", "b"], completedAt := some 5 }

/-- A fresh empty cell (used to witness the attach/remove round trip). -/
def freshCell : BingoCell :=
  { id := "c", text := "t", photos := some [], completedAt := none }

/-- A stored cell carrying the legacy `photoUrl` field with the empty string —
falsy in JavaScript, although the field is present. -/
def legacyEmptyUrlCell : StoredCell :=
  { id := "c", text := "t", photos := none, photoUrl := some "", completedAt := none }

/-- A stored cell carrying a genuine legacy `photoUrl`. -/
def legacyUrlCell : StoredCell :=
  { id := "c", text := "t", photos := none, photoUrl := some "u", completedAt := some 9 }

/-- A small game used to witness the share round trip. -/
def sampleGame : BingoGame :=
  { id := "1", title := "Office"
    size := 1
    cells := [{ id := "c0", text := "t0", photos := some ["p"], completedAt := some 7 }]
    createdAt := 1, theme := none }

/-! ## Helper lemmas -/

lemma mkCells_length (now : Nat) : ∀ (idx : Nat) (ts : List String),
    (mkCells now idx ts).length = ts.length := by
  intro idx ts
  induction ts generalizing idx with
  | nil => rfl
  | cons t ts ih => simp [mkCells, ih]

lemma markIdx_length : ∀ (cells : List BingoCell) (i : Nat),
    (markIdx i cells).length = cells.length := by
  intro cells
  induction cells with
  | nil => intro i; rfl
  | cons c cs ih => intro i; simp [markIdx, ih]

lemma markIdx_filter_length_iff : ∀ (cells : List BingoCell) (i : Nat),
    ((markIdx i cells).filter (fun j => j != -1)).length = cells.length ↔
      ∀ c ∈ cells, cellComplete c = true := by
  intro cells
  induction cells with
  | nil => intro i; simp [markIdx]
  | cons c cs ih =>
      intro i
      by_cases hc : cellComplete c = true
      · have hkeep : (((i : Nat) : Int) != -1) = true := by
          simp only [bne_iff_ne, ne_eq]
          omega
        simp [markIdx, hc, List.filter, hkeep, ih (i + 1)]
      · have hdrop : ((-1 : Int) != -1) = false := by simp
        have hle : ((markIdx (i + 1) cs).filter (fun j => j != -1)).length ≤ cs.length := by
          calc ((markIdx (i + 1) cs).filter (fun j => j != -1)).length
              ≤ (markIdx (i + 1) cs).length := List.length_filter_le _ _
            _ = cs.length := markIdx_length cs (i + 1)
        constructor
        · intro hlen
          exfalso
          simp [markIdx, hc, List.filter, hdrop] at hlen
          omega
        · intro hall
          exact absurd (hall c (by simp)) hc

lemma completedIdx_length_iff (cells : List BingoCell) :
    (completedIdx cells).length = cells.length ↔ ∀ c ∈ cells, cellComplete c = true :=
  markIdx_filter_length_iff cells 0

lemma generateBingoItems_length (topic : String) (count : Nat) (r : ProviderResult) :
    (generateBingoItems topic count r).length = count := by
  cases r with
  | err => simp [generateBingoItems]
  | ok items =>
      simp only [generateBingoItems, List.length_take, List.length_append,
        List.length_map, List.length_range]
      omega

lemma attachPhotos_photos (ups : List (String × Nat)) :
    ∀ c : BingoCell, ups ≠ [] →
      (attachPhotos c ups).photos = some (c.photos.getD [] ++ ups.map Prod.fst) := by
  induction ups with
  | nil => intro c h; exact absurd rfl h
  | cons u us ih =>
      intro c _
      by_cases hus : us = []
      · subst hus
        simp [attachPhotos, addPhotoCell]
      · have := ih (addPhotoCell c u.1 u.2) hus
        simp only [attachPhotos, List.foldl_cons] at this ⊢
        rw [this]
        simp [addPhotoCell]

lemma removePhotoCell_zero (c : BingoCell) (q : String) (qs : List String)
    (hc : c.photos = some (q :: qs)) :
    removePhotoCell c 0 =
      { c with photos := some qs,
               completedAt := if 0 < qs.length then c.completedAt else none } := by
  simp [removePhotoCell, hc, jsSplice1]

lemma removeAllZero : ∀ (ps : List String) (c : BingoCell), c.photos = some ps → ps ≠ [] →
    (removePhotos c (List.replicate ps.length 0)).photos = some [] ∧
    (removePhotos c (List.replicate ps.length 0)).completedAt = none := by
  intro ps
  induction ps with
  | nil => intro c _ hne; exact absurd rfl hne
  | cons q qs ih =>
      intro c hc _
      have hstep := removePhotoCell_zero c q qs hc
      by_cases hqs : qs = []
      · subst hqs
        simp only [List.length_cons, List.length_nil, List.replicate, removePhotos,
          List.foldl_cons, List.foldl_nil, hstep]
        simp
      · have hlen : (q :: qs).length = qs.length + 1 := rfl
        have hrep : List.replicate (q :: qs).length (0 : Int) =
            0 :: List.replicate qs.length 0 := by
          simp [hlen, List.replicate]
        rw [hrep]
        simp only [removePhotos, List.foldl_cons]
        have hphotos : (removePhotoCell c 0).photos = some qs := by rw [hstep]
        exact ih (removePhotoCell c 0) hphotos hqs

lemma cellComplete_of_photos (c : BingoCell) (ps : List String) (h : c.photos = some ps) :
    cellComplete c = decide (0 < ps.length) := by
  simp [cellComplete, h]

lemma cellComplete_of_no_photos (c : BingoCell) (h : c.photos = none) :
    cellComplete c = false := by
  simp [cellComplete, h]

/-! ## The claims -/

/-- C10: the board-level full-house flag is `false` for the degenerate
zero-cell board — `isFull` requires `cells.length > 0` on top of every cell
being complete — while a non-empty all-complete board does report full house. -/
theorem fullhouse_requires_nonempty :
    isFullHouse ([] : List BingoCell) = false ∧ isFullHouse oneCompleteCell = true := by
  decide

/-- C1 counterexample: on the zero-cell board every cell is (vacuously)
complete — `List.all` of the completion test returns `true` — yet the
board-level full-house flag is `false`, so "whenever every cell of the board is
complete, the full-house flag is true" fails at this input. -/
theorem winline_fullhouse_empty_board_cex :
    ([] : List BingoCell).all cellComplete = true ∧
    isFullHouse ([] : List BingoCell) = false := by
  decide

/-- C1 (amended): on the 3×3 board with exactly row 0 complete the evaluator
tags exactly the three row-0 indices with `row`; on the 5×5 board with exactly
the main diagonal complete it tags exactly those five indices with `diag`; and
every *non-empty* board all of whose cells are complete has full-house `true`,
regardless of line tags. -/
theorem winline_evaluator_amended (cells : List BingoCell) (hne : cells ≠ [])
    (hall : ∀ c ∈ cells, cellComplete c = true) :
    (∀ i : Nat, i < 9 → winStatus 3 rowCells3 (i : Int) = if i < 3 then ["row"] else []) ∧
    (∀ i : Nat, i < 25 → winStatus 5 diagCells5 (i : Int) = if i % 6 = 0 then ["diag"] else []) ∧
    isFullHouse cells = true := by
  refine ⟨by decide, by decide, ?_⟩
  have hlen := (completedIdx_length_iff cells).mpr hall
  have hpos : 0 < cells.length := by
    cases cells with
    | nil => exact absurd rfl hne
    | cons c cs => simp
  simp [isFullHouse, hlen, hpos]

theorem winline_evaluator_amended_witness :
    isFullHouse oneCompleteCell = true :=
  (winline_evaluator_amended oneCompleteCell (by decide) (by decide)).2.2

/-- C4 counterexample: adding a single photo to one cell of the all-empty 3×3
game signals the celebratory flag even though the board was not full before the
attach and is still not full after it — so the flag cannot be the before/after
full-house comparison the claim describes. -/
theorem confetti_not_fullhouse_cex :
    (addPhoto emptyGame3 "c0" "p" 1).2 = true ∧
    isFullHouse emptyGame3.cells = false ∧
    isFullHouse (addPhoto emptyGame3 "c0" "p" 1).1.cells = false := by
  decide

/-- C4 (amended): `addPhoto` passes `triggerConfetti = true` unconditionally,
so the celebratory event fires on every photo attach — no full-house comparison
is performed — while `removePhoto` never signals it. -/
theorem confetti_always_on_add_amended (g : BingoGame) (cellId photoUrl : String)
    (now : Nat) (photoIndex : Int) :
    (addPhoto g cellId photoUrl now).2 = true ∧
    (removePhoto g cellId photoIndex).2 = false :=
  ⟨rfl, rfl⟩

/-- C5: every creation path yields `cells.length = size * size`: the manual
path with its generic `Task i+1` items, the fixed holiday template (25 tasks on
a 5×5 board), and the AI-assisted path under every provider outcome. -/
theorem creation_cells_length (title : String) (size now : Nat) (topic : String)
    (r : ProviderResult) :
    (handleCreateGame (manualSubmitParams title size) now).cells.length = size * size ∧
    (handleCreateGame holidayParams now).cells.length
      = holidayParams.size * holidayParams.size ∧
    (handleCreateGame (aiSubmitParams title size topic r) now).cells.length
      = size * size := by
  refine ⟨?_, ?_, ?_⟩
  · simp [handleCreateGame, manualSubmitParams, mkCells_length, manualItems]
  · simp only [handleCreateGame, holidayParams, mkCells_length]
    rfl
  · simp [handleCreateGame, aiSubmitParams, mkCells_length, generateBingoItems_length]

/-- C8: `generateBingoItems` returns exactly `count` items for every provider
outcome; a provider list *shorter* than `count` is kept in full and the
shortfall is filled with the deterministic `Bonus Item i+1` placeholders; a
provider list at least `count` long is truncated to its first `count` entries;
and on total failure the result is the deterministic list of topic-labelled
placeholders. -/
theorem generate_items_exact_count (topic : String) (count : Nat) (r : ProviderResult) :
    (generateBingoItems topic count r).length = count ∧
    (∀ items : List String, items.length ≤ count →
       generateBingoItems topic count (.ok items)
         = items ++ (List.range (count - items.length)).map (fun i => s!"Bonus Item {i + 1}")) ∧
    (∀ items : List String, count ≤ items.length →
       generateBingoItems topic count (.ok items) = items.take count) ∧
    generateBingoItems topic count .err
      = (List.range count).map (fun i => s!"Task {i + 1} ({topic})") := by
  refine ⟨generateBingoItems_length topic count r, ?_, ?_, rfl⟩
  · intro items hle
    have hlen : (items ++ (List.range (count - items.length)).map
        (fun i => s!"Bonus Item {i + 1}")).length = count := by
      simp only [List.length_append, List.length_map, List.length_range]
      omega
    simp only [generateBingoItems]
    rw [List.take_of_length_le (le_of_eq hlen)]
  · intro items hle
    have hz : count - items.length = 0 := by omega
    simp [generateBingoItems, hz]

theorem generate_items_exact_count_witness :
    generateBingoItems "Office" 3 (.ok ["a"]) = ["a", "Bonus Item 1", "Bonus Item 2"] ∧
    generateBingoItems "Office" 2 (.ok ["a", "b", "c"]) = ["a", "b"] := by
  constructor
  · have h := (generate_items_exact_count "Office" 3 (.ok ["a"])).2.1 ["a"] (by decide)
    rw [h]
    rfl
  · have h := (generate_items_exact_count "Office" 2 (.ok ["a", "b", "c"])).2.2.1
      ["a", "b", "c"] (by decide)
    rw [h]
    rfl

/-- C2: importing the share token exported from `b` yields a board with the
same title, the same size and the same row-major cell-text sequence, every
cell's photo list empty and its `completedAt` unset, and — whenever the share
moment `now` differs from the original creation data, as two `Date.now()`
readings at distinct instants do — a fresh `id` and `createdAt`. -/
theorem share_roundtrip (g : BingoGame) (now : Nat)
    (hid : toString now ≠ g.id) (hts : now ≠ g.createdAt) :
    (importShareable (exportShareable g now)).title = g.title ∧
    (importShareable (exportShareable g now)).size = g.size ∧
    (importShareable (exportShareable g now)).cells.map BingoCell.text
      = g.cells.map BingoCell.text ∧
    (∀ c ∈ (importShareable (exportShareable g now)).cells,
       c.photos = some [] ∧ c.completedAt = none) ∧
    (importShareable (exportShareable g now)).id ≠ g.id ∧
    (importShareable (exportShareable g now)).createdAt ≠ g.createdAt := by
  refine ⟨rfl, rfl, ?_, ?_, hid, hts⟩
  · simp [importShareable, exportShareable, List.map_map, Function.comp]
  · intro c hc
    simp only [importShareable, exportShareable, List.mem_map] at hc
    obtain ⟨d, _, rfl⟩ := hc
    exact ⟨rfl, rfl⟩

theorem share_roundtrip_witness :
    (importShareable (exportShareable sampleGame 2)).title = sampleGame.title ∧
    (importShareable (exportShareable sampleGame 2)).id ≠ sampleGame.id ∧
    (importShareable (exportShareable sampleGame 2)).createdAt ≠ sampleGame.createdAt :=
  ⟨(share_roundtrip sampleGame 2 (by decide) (by decide)).1,
   (share_roundtrip sampleGame 2 (by decide) (by decide)).2.2.2.2⟩

/-- C3: a cell is classified complete iff its photo list is present and
non-empty; the classification depends on `photos` alone (there is no separate
boolean); and for every cell honouring the code's invariant (no `completedAt`
without photos), attaching any number of photos and then removing all of them
one by one returns the cell to incomplete with `completedAt` unset. -/
theorem completion_photos_criterion :
    (∀ c : BingoCell, cellComplete c = true ↔ ∃ ps, c.photos = some ps ∧ ps ≠ []) ∧
    (∀ c d : BingoCell, c.photos = d.photos → cellComplete c = cellComplete d) ∧
    (∀ (c : BingoCell) (ups : List (String × Nat)),
       (cellComplete c = false → c.completedAt = none) →
       cellComplete (removePhotos (attachPhotos c ups)
         (List.replicate (photoCount (attachPhotos c ups)) 0)) = false ∧
       (removePhotos (attachPhotos c ups)
         (List.replicate (photoCount (attachPhotos c ups)) 0)).completedAt = none) := by
  refine ⟨?_, ?_, ?_⟩
  · intro c
    cases hc : c.photos with
    | none => simp [cellComplete_of_no_photos c hc, hc]
    | some ps =>
        rw [cellComplete_of_photos c ps hc]
        simp [hc, List.length_pos]
  · intro c d h
    cases hc : c.photos with
    | none => rw [cellComplete_of_no_photos c hc, cellComplete_of_no_photos d (h ▸ hc)]
    | some ps => rw [cellComplete_of_photos c ps hc, cellComplete_of_photos d ps (h ▸ hc)]
  · intro c ups hinv
    by_cases hups : ups = []
    · subst hups
      cases hc : c.photos with
      | none =>
          have hfalse : cellComplete c = false := cellComplete_of_no_photos c hc
          have hcount : photoCount c = 0 := by simp [photoCount, hc]
          simpa [attachPhotos, hcount, removePhotos, hfalse] using hinv hfalse
      | some ps =>
          by_cases hps : ps = []
          · subst hps
            have hfalse : cellComplete c = false := by
              rw [cellComplete_of_photos c [] hc]; rfl
            have hcount : photoCount c = 0 := by simp [photoCount, hc]
            simpa [attachPhotos, hcount, removePhotos, hfalse] using hinv hfalse
          · have hcount : photoCount c = ps.length := by simp [photoCount, hc]
            have hmain := removeAllZero ps c hc hps
            simp only [attachPhotos, List.foldl_nil, hcount]
            refine ⟨?_, hmain.2⟩
            rw [cellComplete_of_photos _ [] hmain.1]
            rfl
    · have hph := attachPhotos_photos ups c hups
      have hne : (c.photos.getD [] ++ ups.map Prod.fst) ≠ [] := by
        simp [hups]
      have hcount : photoCount (attachPhotos c ups)
          = (c.photos.getD [] ++ ups.map Prod.fst).length := by
        simp [photoCount, hph]
      have hmain := removeAllZero _ (attachPhotos c ups) hph hne
      rw [hcount]
      refine ⟨?_, hmain.2⟩
      rw [cellComplete_of_photos _ [] hmain.1]
      rfl

theorem completion_photos_criterion_witness :
    cellComplete (removePhotos (attachPhotos freshCell [("p1", 1), ("p2", 2)])
      (List.replicate (photoCount (attachPhotos freshCell [("p1", 1), ("p2", 2)])) 0)) = false ∧
    (removePhotos (attachPhotos freshCell [("p1", 1), ("p2", 2)])
      (List.replicate (photoCount (attachPhotos freshCell [("p1", 1), ("p2", 2)])) 0)).completedAt
      = none :=
  completion_photos_criterion.2.2 freshCell [("p1", 1), ("p2", 2)] (by decide)

/-- C6 counterexample: a stored cell with no `photos` field whose legacy
`photoUrl` field is present but holds the empty string — falsy in JavaScript —
migrates to the *empty* photo list, not to the one-element list holding that
original value. -/
theorem migration_empty_photourl_cex :
    legacyEmptyUrlCell.photos = none ∧
    legacyEmptyUrlCell.photoUrl = some "" ∧
    (migrateCell legacyEmptyUrlCell).photos = some [] ∧
    some ([] : List String) ≠ some [""] := by
  decide

/-- C6 (amended): a persisted cell lacking `photos` whose legacy `photoUrl` is
a *non-empty* string loads with the one-element list holding that value; with
`photoUrl` absent — or present but the falsy empty string — it loads with an
empty list; and a cell that already has a `photos` field keeps it unchanged. -/
theorem migration_amended (cell : StoredCell) :
    (∀ u : String, cell.photos = none → cell.photoUrl = some u → u ≠ "" →
       (migrateCell cell).photos = some [u]) ∧
    (cell.photos = none → (cell.photoUrl = none ∨ cell.photoUrl = some "") →
       (migrateCell cell).photos = some []) ∧
    (∀ ps : List String, cell.photos = some ps → (migrateCell cell).photos = some ps) := by
  refine ⟨?_, ?_, ?_⟩
  · intro u hnone hurl hne
    simp [migrateCell, hnone, hurl, hne]
  · intro hnone hurl
    rcases hurl with h | h <;> simp [migrateCell, hnone, h]
  · intro ps hps
    simp [migrateCell, hps]

theorem migration_amended_witness :
    (migrateCell legacyUrlCell).photos = some ["u"] :=
  (migration_amended legacyUrlCell).1 "u" rfl rfl (by decide)

/-- C7 counterexample: on a cell holding two photos, `removePhoto` at the
invalid index `-1` is *not* a no-op: JavaScript `splice(-1, 1)` counts from the
end and deletes the last photo. -/
theorem remove_negative_index_cex :
    twoPhotoCell.photos = some ["a", "b"] ∧
    (removePhotoCell twoPhotoCell (-1)).photos = some ["a"] := by
  decide

/-- C7 (amended): for a cell honouring the code's invariant (no `completedAt`
without photos), `removePhoto` at any index ≥ `photos.length` leaves the cell —
photo list and `completedAt` alike — completely unchanged, and being total it
cannot crash the session; a *negative* index, however, follows JavaScript
splice semantics and deletes the photo at position `max(length + index, 0)`. -/
theorem remove_out_of_range_noop_amended (c : BingoCell) (i : Int)
    (hinv : cellComplete c = false → c.completedAt = none)
    (hi : (photoCount c : Int) ≤ i) :
    removePhotoCell c i = c := by
  cases hc : c.photos with
  | none => simp [removePhotoCell, hc]
  | some ps =>
      have hlen : (ps.length : Int) ≤ i := by
        simpa [photoCount, hc] using hi
      have hineg : ¬ i < 0 := by omega
      have hsplice : jsSplice1 ps i = ps := by
        have hs : (if i < 0 then ((ps.length : Int) + i).toNat
            else min i.toNat ps.length) = ps.length := by
          simp only [hineg, if_false]
          omega
        simp only [jsSplice1, hs]
        rw [List.take_length, List.drop_eq_nil_of_le (by omega)]
        simp
      by_cases hps : ps = []
      · subst hps
        have hfalse : cellComplete c = false := by
          rw [cellComplete_of_photos c [] hc]; rfl
        have hca := hinv hfalse
        cases c with
        | mk id text photos completedAt =>
            simp only [removePhotoCell, hc, hsplice]
            simp at hc hca
            simp [hc, hca, hsplice]
      · have hpos : 0 < ps.length := List.length_pos.mpr hps
        cases c with
        | mk id text photos completedAt =>
            simp only [removePhotoCell, hc, hsplice]
            simp at hc
            simp [hc, hpos, hsplice, hps]

theorem remove_out_of_range_noop_witness :
    removePhotoCell twoPhotoCell 7 = twoPhotoCell :=
  remove_out_of_range_noop_amended twoPhotoCell 7 (by decide) (by decide)

